import Mathlib

/-!
Verification of the catalog-backed resource lifecycle manager of the
opencode-config-gui repository: a shallow embedding of the frontmatter
parser/validator, the catalog client, the GitHub App authenticator, the
PR submission workflow and the skills/agents resource managers, together
with theorems settling the frozen claims about them.

Strings are modelled as Lean `String` (a list of `Char`); JavaScript
`.length`/`.slice` count UTF-16 code units, which agree with characters
on the Basic Multilingual Plane.  Numbers from JS `parseFloat` are
modelled as exact rationals (IEEE double rounding is not modelled; the
two differ only for literals within 2^-53 of the range bounds).
-/

namespace OCG

/-- JS `\s` character class (ASCII whitespace plus the Unicode space
characters recognised by JavaScript regular expressions). -/
def isSpaceJS (c : Char) : Bool :=
  c.val == 32 || (9 ≤ c.val && c.val ≤ 13) || c.val == 0xa0 || c.val == 0x1680 ||
  (0x2000 ≤ c.val && c.val ≤ 0x200a) || c.val == 0x2028 || c.val == 0x2029 ||
  c.val == 0x202f || c.val == 0x205f || c.val == 0x3000 || c.val == 0xfeff

/-- ASCII decimal digit. -/
def isDigitC (c : Char) : Bool :=
  '0' ≤ c && c ≤ '9'

/-- JS `\w` character class. -/
def isWordChar (c : Char) : Bool :=
  ('a' ≤ c && c ≤ 'z') || ('A' ≤ c && c ≤ 'Z') || ('0' ≤ c && c ≤ '9') || c == '_'

/-- JS `String.prototype.trim`: strip `\s` from both ends. -/
def trimJS (s : String) : String :=
  String.mk (((s.data.dropWhile isSpaceJS).reverse.dropWhile isSpaceJS).reverse)

/-- The slug pattern `^[a-z0-9]+(-[a-z0-9]+)*$` used by every identifier
check in the managers: hyphen-separated nonempty segments of lowercase
alphanumerics (equivalently: splitting on the hyphen yields only nonempty
all-alphanumeric segments, which also rules out leading/trailing/double
hyphens and the empty string). -/
def isSlugChar (c : Char) : Bool :=
  ('a' ≤ c && c ≤ 'z') || ('0' ≤ c && c ≤ '9')

/-- Automaton for the slug regex; the flag records whether the scan is at
the start of a segment (where a hyphen or the end is not allowed). -/
def slugAux : List Char → Bool → Bool
  | [], atSegStart => !atSegStart
  | c :: rest, atSegStart =>
    if isSlugChar c then slugAux rest false
    else if c = '-' then (if atSegStart then false else slugAux rest true)
    else false

def isValidSlug (s : String) : Bool :=
  slugAux s.data true

/-- The lazy group of the pattern `^---\n([\s\S]*?)\n---`: the characters
before the first occurrence of `"\n---"`, or `none` when there is no
occurrence. -/
def fmClose : List Char → Option (List Char)
  | [] => none
  | c :: rest =>
    if c = '\n' ∧ rest.take 3 = ['-', '-', '-'] then some []
    else (fmClose rest).map (c :: ·)

/-- `content.match` against the pattern `^---\n([\s\S]*?)\n---`, returning
the captured frontmatter region: the content must begin with the delimiter
line `"---\n"` and contain a closing `"\n---"` after it. -/
def extractFrontmatter (content : String) : Option String :=
  match content.data with
  | '-' :: '-' :: '-' :: '\n' :: rest => (fmClose rest).map String.mk
  | _ => none

/-- Longest run of non-newline characters (`.+` capture up to `$`). -/
def takeLine (cs : List Char) : List Char :=
  cs.takeWhile fun c => c != '\n'

/-- `\s*(.+)$` at a fixed position, with the backtracking of the regex engine:
the greedy `\s*` prefers to consume each whitespace character (including
newlines — `\s` matches them) and backs off only when no later start for
`(.+)` succeeds; `(.+)` then captures to the end of the line. -/
def matchValueChars : List Char → Option (List Char)
  | [] => none
  | c :: rest =>
    if isSpaceJS c then
      match matchValueChars rest with
      | some v => some v
      | none => if c != '\n' then some (takeLine (c :: rest)) else none
    else some (takeLine (c :: rest))

/-- Strip an exact token from the front of a character list. -/
def stripToken : List Char → List Char → Option (List Char)
  | [], cs => some cs
  | _ :: _, [] => none
  | p :: ps, c :: cs => if p = c then stripToken ps cs else none

/-- Try `key:` followed by `\s*(.+)$` at one position. -/
def keyMatchAt (key : List Char) (cs : List Char) : Option (List Char) :=
  match stripToken (key ++ [':']) cs with
  | some t => matchValueChars t
  | none => none

/-- Scan the remaining line starts (characters following a newline). -/
def scanRest (key : List Char) : List Char → Option (List Char)
  | [] => none
  | c :: rest =>
    if c = '\n' then
      match keyMatchAt key rest with
      | some v => some v
      | none => scanRest key rest
    else scanRest key rest

/-- `s.match(/^key:\s*(.+)$/m)`, returning the captured group of the
leftmost match: the pattern is tried at position 0 and after each
newline, in order. -/
def matchField (key : String) (s : String) : Option String :=
  match keyMatchAt key.data s.data with
  | some v => some (String.mk v)
  | none => (scanRest key.data s.data).map String.mk

/-- Value of a digit run, most significant first. -/
def digitsVal (ds : List Char) : Nat :=
  ds.foldl (fun a c => a * 10 + (c.toNat - 48)) 0

/-- An exact rational kept as an unreduced signed fraction with positive
denominator; the only consumers are sign and order-against-one checks, so
no normalisation is needed. -/
structure JsNumber where
  num : Int
  den : Nat
deriving DecidableEq, Repr

/-- `value < 0` for an unreduced fraction with positive denominator. -/
def JsNumber.ltZero (q : JsNumber) : Bool :=
  q.num < 0

/-- `value > 1` for an unreduced fraction with positive denominator. -/
def JsNumber.gtOne (q : JsNumber) : Bool :=
  (q.den : Int) < q.num

/-- Assemble `sign * (intVal.fracVal) * 10^e` as an unreduced fraction. -/
def mkJsNumber (neg : Bool) (intVal fracVal fracLen : Nat) (e : Int) : JsNumber :=
  let base : Nat := (intVal * 10 ^ fracLen + fracVal) * 10 ^ e.toNat
  { num := if neg then -(base : Int) else (base : Int),
    den := 10 ^ fracLen * 10 ^ (-e).toNat }

/-- JS `parseFloat`, as an exact rational: leading whitespace, optional
sign, a decimal mantissa with at least one digit, and an optional
exponent (an incomplete exponent is not consumed).  `none` models `NaN`;
the `Infinity` literal is also mapped to `none`, which is
indistinguishable from `NaN` for the `[0.0, 1.0]` range check that is
the only consumer here.  IEEE double rounding is not modelled. -/
def parseFloatJS (s : String) : Option JsNumber :=
  let cs := s.data.dropWhile isSpaceJS
  let neg : Bool := cs.head? = some '-'
  let cs := if cs.head? = some '-' ∨ cs.head? = some '+' then cs.drop 1 else cs
  let intDs := cs.takeWhile isDigitC
  let cs₁ := cs.drop intDs.length
  let fracDs := if cs₁.head? = some '.' then (cs₁.drop 1).takeWhile isDigitC else []
  let cs₂ := if cs₁.head? = some '.' then (cs₁.drop 1).drop fracDs.length else cs₁
  if intDs.isEmpty ∧ fracDs.isEmpty then none
  else
    let expVal : Int :=
      if cs₂.head? = some 'e' ∨ cs₂.head? = some 'E' then
        let t := cs₂.drop 1
        let esgn : Int := if t.head? = some '-' then -1 else 1
        let t₁ := if t.head? = some '-' ∨ t.head? = some '+' then t.drop 1 else t
        let eds := t₁.takeWhile isDigitC
        if eds.isEmpty then 0 else esgn * (digitsVal eds : Int)
      else 0
    some (mkJsNumber neg (digitsVal intDs) (digitsVal fracDs) fracDs.length expVal)

/-- One repetition of the group in `^metadata:\n((?:  .+\n?)+)` applied at a
fixed position: two literal spaces, at least one non-newline character
(greedy to the end of the line), then the newline when present.  Returns
the consumed characters (which the capture keeps verbatim) and the rest. -/
def metaChunk : List Char → Option (List Char × List Char)
  | ' ' :: ' ' :: c :: rest =>
    if c = '\n' then none
    else
      let line := takeLine (c :: rest)
      let rest₁ := (c :: rest).drop line.length
      match rest₁ with
      | '\n' :: r₂ => some (' ' :: ' ' :: (line ++ ['\n']), r₂)
      | _ => some (' ' :: ' ' :: line, rest₁)
  | _ => none

/-- Greedy iteration of `metaChunk`.  Each chunk consumes at least three
characters, so fuel equal to the input length always suffices. -/
def metaChunksFuel : Nat → List Char → List Char
  | 0, _ => []
  | fuel + 1, cs =>
    match metaChunk cs with
    | none => []
    | some (chunk, rest) => chunk ++ metaChunksFuel fuel rest

/-- The whole `metadata:` block pattern at one position: the literal
`"metadata:\n"` followed by one or more indented lines. -/
def metaMatchAt (cs : List Char) : Option (List Char) :=
  match stripToken ("metadata:\n").data cs with
  | some t =>
    match metaChunk t with
    | none => none
    | some (chunk, rest) => some (chunk ++ metaChunksFuel rest.length rest)
  | none => none

/-- Scan the remaining line starts for the `metadata:` block. -/
def scanMeta : List Char → Option (List Char)
  | [] => none
  | c :: rest =>
    if c = '\n' then
      match metaMatchAt rest with
      | some v => some v
      | none => scanMeta rest
    else scanMeta rest

/-- `frontmatter.match` against `^metadata:\n((?:  .+\n?)+)` with the `m`
flag: leftmost match over the line starts. -/
def findMetaBlock (s : String) : Option String :=
  match metaMatchAt s.data with
  | some v => some (String.mk v)
  | none => (scanMeta s.data).map String.mk

/-- JS `String.prototype.split` on a newline. -/
def splitLinesAux : List Char → List Char → List String
  | [], acc => [String.mk acc.reverse]
  | '\n' :: rest, acc => String.mk acc.reverse :: splitLinesAux rest []
  | c :: rest, acc => splitLinesAux rest (c :: acc)

def splitLines (s : String) : List String :=
  splitLinesAux s.data []

/-- The per-line pattern `^\s+(\w+):\s*(.+)$` used on each line of the
captured metadata block (the line contains no newline, so the anchors are
the ends of the line).  The whitespace and word runs are maximal; the
regex admits no other match here because `\s`, `\w` and `:` are pairwise
disjoint character classes. -/
def kvLineMatch (piece : List Char) : Option (String × String) :=
  let ws := piece.takeWhile isSpaceJS
  if ws.isEmpty then none
  else
    let r₁ := piece.drop ws.length
    let w := r₁.takeWhile isWordChar
    if w.isEmpty then none
    else
      match r₁.drop w.length with
      | ':' :: t => (matchValueChars t).map fun v => (String.mk w, String.mk v)
      | _ => none

/-- JS object assignment `m[k] = v`: an existing key keeps its position and
is overwritten, a new key is appended. -/
def setAssoc {α : Type} : List (String × α) → String → α → List (String × α)
  | [], k, v => [(k, v)]
  | (k', v') :: t, k, v =>
    if k' = k then (k, v) :: t else (k', v') :: setAssoc t k v

def lookupAssoc {α : Type} (l : List (String × α)) (k : String) : Option α :=
  (l.find? fun p => p.1 == k).map (·.2)

def eraseAssoc {α : Type} (l : List (String × α)) (k : String) : List (String × α) :=
  l.filter fun p => p.1 != k

/-- The `metadata` accumulation loop of `parseSkillContent`: split the
captured block on newlines and collect every `key: value` line. -/
def mkSkillMetadata (capture : String) : List (String × String) :=
  (splitLines capture).foldl
    (fun m piece =>
      match kvLineMatch piece.data with
      | some (k, v) => setAssoc m k (trimJS v)
      | none => m)
    []

/-- The `Skill` fields produced by `parseSkillContent` (all but the path and the global flag). -/
structure SkillRec where
  name : String
  description : String
  metadata : Option (List (String × String))
deriving DecidableEq, Repr

/-- `SkillsManager.parseSkillContent(content, expectedName)`: frontmatter
block, required `name` and `description` fields, optional `metadata`
block.  A declared name differing from `expectedName` is deliberately
accepted (the comparison branch in the source is empty). -/
def parseSkillContent (content : String) (expectedName : String) : Option SkillRec :=
  match extractFrontmatter content with
  | none => none
  | some fm =>
    match matchField "name" fm, matchField "description" fm with
    | some nraw, some draw =>
      let metadata : List (String × String) :=
        match findMetaBlock fm with
        | none => []
        | some cap => mkSkillMetadata cap
      some { name := trimJS nraw, description := trimJS draw,
             metadata := if metadata.isEmpty then none else some metadata }
    | _, _ => none

/-- `{field, message}` validation error record. -/
structure AgentValidationError where
  field : String
  message : String
deriving DecidableEq, Repr

def frontmatterMissingError : AgentValidationError :=
  ⟨"frontmatter", "Agent must have YAML frontmatter (content between --- markers)"⟩

def descRequiredError : AgentValidationError :=
  ⟨"description", "Description is required"⟩

def descTooLongError : AgentValidationError :=
  ⟨"description", "Description must be 200 characters or less"⟩

def modeInvalidError : AgentValidationError :=
  ⟨"mode", "Mode must be \"primary\", \"subagent\", or \"all\""⟩

def modelFormatError : AgentValidationError :=
  ⟨"model", "Model should be in format \"provider/model-id\""⟩

def temperatureRangeError : AgentValidationError :=
  ⟨"temperature", "Temperature must be a number between 0.0 and 1.0"⟩

/-- The `description` checks of `validateAgentContent`: required and
nonempty after trimming, else at most 200 characters. -/
def descriptionErrors (fm : String) : List AgentValidationError :=
  match matchField "description" fm with
  | none => [descRequiredError]
  | some raw =>
    let d := trimJS raw
    if d = "" then [descRequiredError]
    else if d.length > 200 then [descTooLongError]
    else []

/-- The `mode` check: when present, one of the three enumerated values. -/
def modeErrors (fm : String) : List AgentValidationError :=
  match matchField "mode" fm with
  | none => []
  | some raw =>
    let m := trimJS raw
    if m = "primary" ∨ m = "subagent" ∨ m = "all" then [] else [modeInvalidError]

/-- JS `String.prototype.includes` with a single-character needle. -/
def containsChar (s : String) (c : Char) : Bool :=
  s.data.any (· == c)

/-- The `model` check: when present and nonempty, must contain a slash. -/
def modelErrors (fm : String) : List AgentValidationError :=
  match matchField "model" fm with
  | none => []
  | some raw =>
    let m := trimJS raw
    if m ≠ "" ∧ ¬ containsChar m '/' then [modelFormatError] else []

/-- The `temperature` check: when present, must parse (`parseFloat`) to a
number in `[0, 1]`. -/
def temperatureErrors (fm : String) : List AgentValidationError :=
  match matchField "temperature" fm with
  | none => []
  | some raw =>
    match parseFloatJS (trimJS raw) with
    | none => [temperatureRangeError]
    | some t => if t.ltZero ∨ t.gtOne then [temperatureRangeError] else []

/-- `AgentsManager.validateAgentContent`: a missing frontmatter block
short-circuits with the single frontmatter error; otherwise the errors of
all four field checks are accumulated in source order. -/
def validateAgentContent (content : String) : List AgentValidationError :=
  match extractFrontmatter content with
  | none => [frontmatterMissingError]
  | some fm =>
    descriptionErrors fm ++ modeErrors fm ++ modelErrors fm ++ temperatureErrors fm

/-- The `Agent` fields produced by `parseAgentContent` — all but name, path
and the global flag (`expectedName` is received but never used by the body). -/
structure AgentRec where
  description : String
  mode : Option String
  model : Option String
deriving DecidableEq, Repr

/-- `AgentsManager.parseAgentContent`. -/
def parseAgentContent (content : String) (expectedName : String) : Option AgentRec :=
  match extractFrontmatter content with
  | none => none
  | some fm =>
    match matchField "description" fm with
    | none => none
    | some raw =>
      some { description := trimJS raw,
             mode := (matchField "mode" fm).map trimJS,
             model := (matchField "model" fm).map trimJS }

/-! ## Resource managers (skills / agents)

The on-disk stores are modelled as association lists, and every operation
also returns the trace of filesystem calls it makes, with the path
strings the source builds (`path.join` is modelled as interposing a
slash; the source never normalises `..` segments itself, it passes the
interpolated string to the filesystem).  The skills store maps a
directory name to its optional `SKILL.md` content (`rm` is recursive and
drops the whole directory); the agents store maps a flat file name to
its content.  Catalog content fetches are passed in as an
`Except String String` oracle: a thrown fetch error is caught by the
enclosing try/catch and surfaced as the error message of the result. -/

inductive FsEvent where
  | read (path : String)
  | statF (path : String)
  | mkdirE (path : String)
  | write (path : String) (content : String)
  | rmE (path : String)
deriving DecidableEq, Repr

abbrev SkillStore := List (String × Option String)

abbrev AgentStore := List (String × String)

def skillsRoot (home : String) : String := home ++ "/.config/opencode/skills"

def skillDirPath (home name : String) : String := skillsRoot home ++ "/" ++ name

def skillMdPath (home name : String) : String := skillDirPath home name ++ "/SKILL.md"

def agentsRoot (home : String) : String := home ++ "/.config/opencode/agents"

def agentFilePath (home name : String) : String := agentsRoot home ++ "/" ++ name ++ ".md"

/-- Installed-skill record. -/
structure Skill where
  name : String
  description : String
  path : String
  isGlobal : Bool
  metadata : Option (List (String × String))
deriving DecidableEq, Repr

structure SkillInstallResult where
  success : Bool
  skill : Option Skill
  error : Option String
deriving DecidableEq, Repr

/-- `SkillsManager.installFromCatalog(skillId)`: slug validation, catalog
fetch, frontmatter parse, then write the content verbatim to
`<skills-root>/<id>/SKILL.md`. -/
def skillsInstallFromCatalog (home : String) (fetched : Except String String)
    (store : SkillStore) (skillId : String) :
    SkillInstallResult × SkillStore × List FsEvent :=
  if ¬ isValidSlug skillId then
    ({ success := false, skill := none, error := some "Invalid skill ID format" }, store, [])
  else
    match fetched with
    | .error e => ({ success := false, skill := none, error := some e }, store, [])
    | .ok content =>
      match parseSkillContent content skillId with
      | none =>
        ({ success := false, skill := none,
           error := some "Invalid SKILL.md format: missing required frontmatter" }, store, [])
      | some r =>
        ({ success := true,
           skill := some { name := r.name, description := r.description,
                           metadata := r.metadata, path := skillDirPath home skillId,
                           isGlobal := true },
           error := none },
         setAssoc store skillId (some content),
         [FsEvent.mkdirE (skillDirPath home skillId),
          FsEvent.write (skillMdPath home skillId) content])

/-- `SkillsManager.getSkillContent(name)`: reads
`<skills-root>/<name>/SKILL.md` directly — there is no identifier
validation in this method — and maps any read failure to `null`. -/
def skillsGetContent (home : String) (store : SkillStore) (name : String) :
    Option String × List FsEvent :=
  (match lookupAssoc store name with
   | some (some c) => some c
   | _ => none,
   [FsEvent.read (skillMdPath home name)])

/-- `SkillsManager.remove(name)`: slug validation, then `stat` of the
`SKILL.md` of the directory, then recursive removal of the directory. -/
def skillsRemove (home : String) (store : SkillStore) (name : String) :
    Except String Unit × SkillStore × List FsEvent :=
  if ¬ isValidSlug name then (.error "Invalid skill name", store, [])
  else
    match lookupAssoc store name with
    | some (some _) =>
      (.ok (), eraseAssoc store name,
       [FsEvent.statF (skillMdPath home name), FsEvent.rmE (skillDirPath home name)])
    | _ => (.error "Skill not found", store, [FsEvent.statF (skillMdPath home name)])

/-- `SkillsManager.listInstalled()`: every directory whose `SKILL.md`
exists and parses contributes a record; the rest are silently skipped. -/
def skillsListInstalled (home : String) (store : SkillStore) : List Skill :=
  store.filterMap fun p =>
    match p.2 with
    | none => none
    | some content =>
      (parseSkillContent content p.1).map fun r =>
        { name := r.name, description := r.description, metadata := r.metadata,
          path := skillDirPath home p.1, isGlobal := true }

/-- Installed-agent record. -/
structure Agent where
  name : String
  description : String
  mode : Option String
  model : Option String
  path : String
  isGlobal : Bool
deriving DecidableEq, Repr

structure AgentInstallResult where
  success : Bool
  agent : Option Agent
  error : Option String
deriving DecidableEq, Repr

/-- The shared validate-parse-write tail of the two agent write paths. -/
def agentsWriteContent (home : String) (store : AgentStore) (name content : String) :
    AgentInstallResult × AgentStore × List FsEvent :=
  match validateAgentContent content with
  | e :: _ => ({ success := false, agent := none, error := some e.message }, store, [])
  | [] =>
    match parseAgentContent content name with
    | none => ({ success := false, agent := none, error := some "Invalid agent format" }, store, [])
    | some r =>
      ({ success := true,
         agent := some { name := name, description := r.description, mode := r.mode,
                         model := r.model, path := agentFilePath home name, isGlobal := true },
         error := none },
       setAssoc store (name ++ ".md") content,
       [FsEvent.mkdirE (agentsRoot home), FsEvent.write (agentFilePath home name) content])

/-- `AgentsManager.installFromCatalog(agentId)`: catalog fetch, empty-content
check, content validation, parse, write to `<agents-root>/<id>.md`.  The
source performs no slug validation on `agentId` in this method. -/
def agentsInstallFromCatalog (home : String) (fetched : Except String String)
    (store : AgentStore) (agentId : String) :
    AgentInstallResult × AgentStore × List FsEvent :=
  match fetched with
  | .error e => ({ success := false, agent := none, error := some e }, store, [])
  | .ok content =>
    if content = "" then
      ({ success := false, agent := none,
         error := some "Failed to fetch agent content from catalog" }, store, [])
    else agentsWriteContent home store agentId content

/-- `AgentsManager.saveAgent(name, content)`: slug validation first, then
the same validate-parse-write sequence. -/
def agentsSave (home : String) (store : AgentStore) (name content : String) :
    AgentInstallResult × AgentStore × List FsEvent :=
  if ¬ isValidSlug name then
    ({ success := false, agent := none,
       error := some "Invalid agent name. Use lowercase letters, numbers, and hyphens only." },
     store, [])
  else agentsWriteContent home store name content

/-- `AgentsManager.getAgentContent(name)`: slug validation before the path
is built; an invalid name returns `null` with no filesystem access. -/
def agentsGetContent (home : String) (store : AgentStore) (name : String) :
    Option String × List FsEvent :=
  if ¬ isValidSlug name then (none, [])
  else (lookupAssoc store (name ++ ".md"), [FsEvent.read (agentFilePath home name)])

/-- `AgentsManager.remove(name)`: slug validation, `stat` of the flat file,
then deletion. -/
def agentsRemove (home : String) (store : AgentStore) (name : String) :
    Except String Unit × AgentStore × List FsEvent :=
  if ¬ isValidSlug name then (.error "Invalid agent name", store, [])
  else
    match lookupAssoc store (name ++ ".md") with
    | some _ =>
      (.ok (), eraseAssoc store (name ++ ".md"),
       [FsEvent.statF (agentFilePath home name), FsEvent.rmE (agentFilePath home name)])
    | none => (.error "Agent not found", store, [FsEvent.statF (agentFilePath home name)])

/-! ## Agency catalog client

The single `fetch` + `json` round-trip of each fetch method is modelled by an
`HttpOutcome` oracle: `thrown` covers a rejected `fetch`/`json` call,
`response` carries the `ok` flag, HTTP status and decoded payload.  Time
is an explicit millisecond parameter (`Date.now()`; the check and the
expiry assignment of one call happen on the same tick).  The third
component of each result records whether the network was consulted. -/

inductive HttpOutcome (α : Type) where
  | thrown (msg : String)
  | response (ok : Bool) (status : Nat) (payload : α)

/-- Catalog skill entry (the optional display fields carried verbatim by
the JSON are omitted; the fetchers treat entries opaquely). -/
structure AgencySkillE where
  id : String
  name : String
  description : String
  path : String
deriving DecidableEq, Repr

structure AgencyAgentE where
  id : String
  name : String
  description : String
  path : String
deriving DecidableEq, Repr

structure AgencyMcpE where
  id : String
  name : String
  description : String
  type : String
deriving DecidableEq, Repr

/-- The mutable fields of `AgencyCatalog`: three independent cache slots
and the single shared `cacheExpiry` timestamp. -/
structure CatalogState where
  skillsCache : Option (List AgencySkillE)
  mcpCache : Option (List AgencyMcpE)
  agentsCache : Option (List AgencyAgentE)
  cacheExpiry : Int
deriving Repr

/-- `cacheDuration = 60 * 60 * 1000`. -/
def cacheDuration : Int := 3600000

/-- The try block of `fetchSkills`: on a non-ok response the source throws
`Failed to fetch skills catalog: <status>`; the catch returns the stale
cache when one exists and rethrows otherwise; a successful response fills
the slot and sets the shared `cacheExpiry` to `now + cacheDuration`. -/
def fetchSkillsNet (st : CatalogState) (net : HttpOutcome (List AgencySkillE)) (now : Int) :
    Except String (List AgencySkillE) × CatalogState × Bool :=
  match net with
  | .thrown e =>
    match st.skillsCache with
    | some cached => (.ok cached, st, true)
    | none => (.error e, st, true)
  | .response ok status entries =>
    if ok then
      (.ok entries,
       { st with skillsCache := some entries, cacheExpiry := now + cacheDuration }, true)
    else
      match st.skillsCache with
      | some cached => (.ok cached, st, true)
      | none => (.error ("Failed to fetch skills catalog: " ++ toString status), st, true)

/-- `AgencyCatalog.fetchSkills(forceRefresh = false)`. -/
def fetchSkills (st : CatalogState) (net : HttpOutcome (List AgencySkillE)) (now : Int)
    (forceRefresh : Bool) : Except String (List AgencySkillE) × CatalogState × Bool :=
  match st.skillsCache with
  | some cached =>
    if forceRefresh = false ∧ now < st.cacheExpiry then (.ok cached, st, false)
    else fetchSkillsNet st net now
  | none => fetchSkillsNet st net now

/-- The try block of `fetchMcpServers`. -/
def fetchMcpNet (st : CatalogState) (net : HttpOutcome (List AgencyMcpE)) (now : Int) :
    Except String (List AgencyMcpE) × CatalogState × Bool :=
  match net with
  | .thrown e =>
    match st.mcpCache with
    | some cached => (.ok cached, st, true)
    | none => (.error e, st, true)
  | .response ok status entries =>
    if ok then
      (.ok entries,
       { st with mcpCache := some entries, cacheExpiry := now + cacheDuration }, true)
    else
      match st.mcpCache with
      | some cached => (.ok cached, st, true)
      | none => (.error ("Failed to fetch MCP catalog: " ++ toString status), st, true)

/-- `AgencyCatalog.fetchMcpServers(forceRefresh = false)`. -/
def fetchMcpServers (st : CatalogState) (net : HttpOutcome (List AgencyMcpE)) (now : Int)
    (forceRefresh : Bool) : Except String (List AgencyMcpE) × CatalogState × Bool :=
  match st.mcpCache with
  | some cached =>
    if forceRefresh = false ∧ now < st.cacheExpiry then (.ok cached, st, false)
    else fetchMcpNet st net now
  | none => fetchMcpNet st net now

/-- The try block of `fetchAgents`. -/
def fetchAgentsNet (st : CatalogState) (net : HttpOutcome (List AgencyAgentE)) (now : Int) :
    Except String (List AgencyAgentE) × CatalogState × Bool :=
  match net with
  | .thrown e =>
    match st.agentsCache with
    | some cached => (.ok cached, st, true)
    | none => (.error e, st, true)
  | .response ok status entries =>
    if ok then
      (.ok entries,
       { st with agentsCache := some entries, cacheExpiry := now + cacheDuration }, true)
    else
      match st.agentsCache with
      | some cached => (.ok cached, st, true)
      | none => (.error ("Failed to fetch agents catalog: " ++ toString status), st, true)

/-- `AgencyCatalog.fetchAgents(forceRefresh = false)`. -/
def fetchAgents (st : CatalogState) (net : HttpOutcome (List AgencyAgentE)) (now : Int)
    (forceRefresh : Bool) : Except String (List AgencyAgentE) × CatalogState × Bool :=
  match st.agentsCache with
  | some cached =>
    if forceRefresh = false ∧ now < st.cacheExpiry then (.ok cached, st, false)
    else fetchAgentsNet st net now
  | none => fetchAgentsNet st net now

/-- Whether the single fetch attempt of a call fails (a rejected promise,
or a response with `ok = false`). -/
def fetchFailed {α : Type} : HttpOutcome α → Prop
  | .thrown _ => True
  | .response ok _ _ => ok = false

/-- The error a failing attempt surfaces: the thrown message, or the
`errHead ++ status` message built for a non-ok response. -/
def fetchFailMsg {α : Type} (errHead : String) : HttpOutcome α → String
  | .thrown e => e
  | .response _ status _ => errHead ++ toString status

/-! ## GitHub App service

`getInstallationToken` is modelled over its cache slot with explicit
time; the token-exchange HTTP response carries the parsed
`expires_at` instant in milliseconds (`new Date(...).getTime()`).
`createSkillRequestPR` is modelled over an oracle giving the response to
the n-th issued request; request bodies are abstracted except for the
step-4 catalog update, whose decoded payload the claims inspect.  The
token acquisition performed inside `githubRequest` is taken as already
satisfied (the claims under proof concern only the six step responses). -/

structure InstallationToken where
  token : String
  expiresAt : Int
deriving DecidableEq, Repr

structure TokenResponse where
  ok : Bool
  status : Nat
  bodyText : String
  token : String
  expiresAtMs : Int
deriving Repr

/-- The regeneration tail of `getInstallationToken`: non-2xx fails with
status and body; otherwise the token is cached with recorded expiry
`expires_at - 5 minutes` and returned. -/
def regenerateToken (cached : Option InstallationToken) (resp : TokenResponse) :
    Except String String × Option InstallationToken × Bool :=
  if resp.ok then
    (.ok resp.token, some ⟨resp.token, resp.expiresAtMs - 5 * 60 * 1000⟩, true)
  else
    (.error ("Failed to get installation token: " ++ toString resp.status ++ " " ++ resp.bodyText),
     cached, true)

/-- `GitHubAppService.getInstallationToken()`: the cached token is returned
without any network call exactly when `now < cachedToken.expiresAt`.  The
result is `(outcome, new cache slot, network used)`. -/
def getInstallationToken (cached : Option InstallationToken) (now : Int)
    (resp : TokenResponse) : Except String String × Option InstallationToken × Bool :=
  match cached with
  | some t => if now < t.expiresAt then (.ok t.token, cached, false) else regenerateToken cached resp
  | none => regenerateToken cached resp

/-- One entry of the `skills.json` catalog index. -/
structure SkillsJsonEntry where
  id : String
  name : String
  description : String
  category : String
  tags : List String
  path : String
  author : String
  version : String
  updatedAt : String
deriving DecidableEq, Repr

/-- The decoded `skills.json` document. -/
structure SkillsJson where
  version : String
  lastUpdated : String
  skills : List SkillsJsonEntry
deriving DecidableEq, Repr

/-- A response as read by the PR workflow: the `ok` flag and status, the
`text()` body (step-5 failure), and the fields the successful steps
decode: the ref SHA (step 1), the catalog content and its blob SHA
(step 4), and the PR `html_url` (step 5). -/
structure GhResponse where
  ok : Bool
  status : Nat
  bodyText : String
  sha : String
  contentSha : String
  catalog : SkillsJson
  htmlUrl : String
deriving Repr

/-- A request descriptor: method, path, and — for the step-4 catalog
update — the decoded document written back. -/
structure GhRequest where
  method : String
  path : String
  catalogBody : Option SkillsJson
deriving DecidableEq, Repr

structure SkillRequestResult where
  success : Bool
  prUrl : Option String
  error : Option String
deriving DecidableEq, Repr

def repoApi (rest : String) : String := "/repos/ThinkOodle/ai-catalog" ++ rest

/-- The catalog-index entry appended in step 4: both the `name` and the
`description` of the entry are computed from the description of the skill
(truncated at 64 and 200 characters respectively, with a three-dot
ellipsis replacing the tail), its `id` is the slug and its `path` the
step-3 file path. -/
def mkRequestedEntry (skillName skillDescription nowIso : String) : SkillsJsonEntry :=
  { id := skillName,
    name := if skillDescription.length > 64 then skillDescription.take 61 ++ "..."
            else skillDescription,
    description := if skillDescription.length > 200 then skillDescription.take 197 ++ "..."
                   else skillDescription,
    category := "Requested",
    tags := ["requested"],
    path := "skills/" ++ skillName ++ "/SKILL.md",
    author := "Skill Request",
    version := "1.0.0",
    updatedAt := nowIso }

/-- The step-4 rewrite of the decoded catalog: bump `lastUpdated` and
append the requested entry. -/
def updatedCatalog (cat : SkillsJson) (skillName skillDescription nowIso : String) :
    SkillsJson :=
  { cat with lastUpdated := nowIso,
             skills := cat.skills ++ [mkRequestedEntry skillName skillDescription nowIso] }

/-- The six HTTP requests of a complete `createSkillRequestPR` call, in
order (step 4 issues two: the catalog read and the catalog update). -/
def prStepRequests (skillName : String) (nowMs : Int) (catBody : SkillsJson) :
    List GhRequest :=
  [⟨"GET", repoApi "/git/ref/heads/master", none⟩,
   ⟨"POST", repoApi "/git/refs", none⟩,
   ⟨"PUT", repoApi ("/contents/skills/" ++ skillName ++ "/SKILL.md"), none⟩,
   ⟨"GET", repoApi ("/contents/skills.json?ref="
      ++ ("skill-request/" ++ skillName ++ "-" ++ toString nowMs)), none⟩,
   ⟨"PUT", repoApi "/contents/skills.json", some catBody⟩,
   ⟨"POST", repoApi "/pulls", none⟩]

/-- The error message thrown when the k-th request (0-based) is non-2xx. -/
def prStepErrorMsg (k : Nat) (r : GhResponse) : String :=
  match k with
  | 0 => "Failed to get branch ref: " ++ toString r.status
  | 1 => "Failed to create branch: " ++ toString r.status
  | 2 => "Failed to create SKILL.md: " ++ toString r.status
  | 3 => "Failed to fetch skills.json: " ++ toString r.status
  | 4 => "Failed to update skills.json: " ++ toString r.status
  | _ => "Failed to create PR: " ++ toString r.status ++ " " ++ r.bodyText

def prFail (e : String) : SkillRequestResult :=
  { success := false, prUrl := none, error := some e }

/-- `GitHubAppService.createSkillRequestPR(name, description, content,
sourceUrl)`: five strictly sequential steps, each throwing on a non-2xx
response; the surrounding try/catch converts the thrown message into
`{success: false, error}`.  Returns the result and the trace of issued
requests. -/
def createSkillRequestPR (skillName skillDescription skillContent sourceUrl : String)
    (nowMs : Int) (nowIso : String) (net : Nat → GhResponse) :
    SkillRequestResult × List GhRequest :=
  let branchName := "skill-request/" ++ skillName ++ "-" ++ toString nowMs
  let req₀ : GhRequest := ⟨"GET", repoApi "/git/ref/heads/master", none⟩
  let r₀ := net 0
  if r₀.ok = false then (prFail ("Failed to get branch ref: " ++ toString r₀.status), [req₀])
  else
    let req₁ : GhRequest := ⟨"POST", repoApi "/git/refs", none⟩
    let r₁ := net 1
    if r₁.ok = false then
      (prFail ("Failed to create branch: " ++ toString r₁.status), [req₀, req₁])
    else
      let req₂ : GhRequest := ⟨"PUT", repoApi ("/contents/skills/" ++ skillName ++ "/SKILL.md"), none⟩
      let r₂ := net 2
      if r₂.ok = false then
        (prFail ("Failed to create SKILL.md: " ++ toString r₂.status), [req₀, req₁, req₂])
      else
        let req₃ : GhRequest := ⟨"GET", repoApi ("/contents/skills.json?ref=" ++ branchName), none⟩
        let r₃ := net 3
        if r₃.ok = false then
          (prFail ("Failed to fetch skills.json: " ++ toString r₃.status), [req₀, req₁, req₂, req₃])
        else
          let newCat := updatedCatalog r₃.catalog skillName skillDescription nowIso
          let req₄ : GhRequest := ⟨"PUT", repoApi "/contents/skills.json", some newCat⟩
          let r₄ := net 4
          if r₄.ok = false then
            (prFail ("Failed to update skills.json: " ++ toString r₄.status),
             [req₀, req₁, req₂, req₃, req₄])
          else
            let req₅ : GhRequest := ⟨"POST", repoApi "/pulls", none⟩
            let r₅ := net 5
            if r₅.ok = false then
              (prFail ("Failed to create PR: " ++ toString r₅.status ++ " " ++ r₅.bodyText),
               [req₀, req₁, req₂, req₃, req₄, req₅])
            else
              ({ success := true, prUrl := some r₅.htmlUrl, error := none },
               [req₀, req₁, req₂, req₃, req₄, req₅])

/-! ## Helper lemmas -/

theorem stringDataInj {a b : String} (h : a.data = b.data) : a = b :=
  congrArg String.mk h

theorem lookupAssoc_setAssoc_self {α : Type} (l : List (String × α)) (k : String) (v : α) :
    lookupAssoc (setAssoc l k v) k = some v := by
  induction l with
  | nil => simp [setAssoc, lookupAssoc]
  | cons p t ih =>
    rcases p with ⟨k', v'⟩
    by_cases h : k' = k
    · simp [setAssoc, h, lookupAssoc]
    · simpa [setAssoc, h, lookupAssoc, List.find?] using ih

theorem setAssoc_self_mem {α : Type} (l : List (String × α)) (k : String) (v : α) :
    (k, v) ∈ setAssoc l k v := by
  induction l with
  | nil => simp [setAssoc]
  | cons p t ih =>
    rcases p with ⟨k', v'⟩
    by_cases h : k' = k
    · simp [setAssoc, h]
    · simp [setAssoc, h, ih]

theorem fmClose_decomp (cs : List Char) :
    ∀ g, fmClose cs = some g → ∃ rest, cs = g ++ '\n' :: '-' :: '-' :: '-' :: rest := by
  induction cs with
  | nil => intro g h; simp [fmClose] at h
  | cons c rest ih =>
    intro g h
    unfold fmClose at h
    split at h
    · next hcond =>
      obtain ⟨hc, htake⟩ := hcond
      obtain rfl : ([] : List Char) = g := Option.some.inj h
      refine ⟨rest.drop 3, ?_⟩
      subst hc
      have hr : rest = '-' :: '-' :: '-' :: rest.drop 3 := by
        conv_lhs => rw [← List.take_append_drop 3 rest]
        rw [htake]
        rfl
      simpa using congrArg (fun l => '\n' :: l) hr
    · next =>
      obtain ⟨g', hg', rfl⟩ := Option.map_eq_some'.mp h
      obtain ⟨r, hr⟩ := ih g' hg'
      exact ⟨r, by rw [hr]; simp⟩

/-! ## Claim theorems -/

/-- **C1** (code-bug evidence).  The claim states that every
resource-manager operation receiving a user- or catalog-supplied
identifier rejects identifiers failing the slug pattern before any
filesystem path containing them is constructed or touched.  The code
violates this in two of the cited operations: `SkillsManager.getSkillContent`
builds and reads `<skills-root>/<name>/SKILL.md` with no validation (an
identifier with `..` segments reaches the filesystem and its content is
returned, not `null`), and `AgentsManager.installFromCatalog` writes the
fetched content to `<agents-root>/<id>.md` with no validation, so a
traversal identifier installs a file outside the store. -/
theorem identifier_validation_bypassed :
    isValidSlug "../evil" = false ∧
    skillsGetContent "/home/user" [("../evil", some "secret")] "../evil"
      = (some "secret", [FsEvent.read "/home/user/.config/opencode/skills/../evil/SKILL.md"]) ∧
    (agentsInstallFromCatalog "/home/user" (.ok "---\ndescription: x\n---\nbody") [] "../evil").1.success
      = true ∧
    (agentsInstallFromCatalog "/home/user" (.ok "---\ndescription: x\n---\nbody") [] "../evil").2.2
      = [FsEvent.mkdirE "/home/user/.config/opencode/agents",
         FsEvent.write "/home/user/.config/opencode/agents/../evil.md"
           "---\ndescription: x\n---\nbody"] := by
  refine ⟨by decide, by decide, by decide, by decide⟩

/-- The catalog content of the C8 scenario. -/
def crContent : String := "---\nname: code-review\ndescription: Reviews code\n---\nBody text"

/-- **C8**: installing skill `code-review` from the catalog with the
scenario content succeeds, writes the content verbatim to
`<skills-root>/code-review/SKILL.md`, and a subsequent `listInstalled`
includes a record named `code-review` with description `Reviews code` —
for every home directory and every prior state of the store. -/
theorem install_code_review_scenario (home : String) (store : SkillStore) :
    (skillsInstallFromCatalog home (.ok crContent) store "code-review").1
      = { success := true,
          skill := some { name := "code-review", description := "Reviews code",
                          path := skillDirPath home "code-review", isGlobal := true,
                          metadata := none },
          error := none } ∧
    (skillsInstallFromCatalog home (.ok crContent) store "code-review").2.2
      = [FsEvent.mkdirE (skillDirPath home "code-review"),
         FsEvent.write (skillMdPath home "code-review") crContent] ∧
    lookupAssoc (skillsInstallFromCatalog home (.ok crContent) store "code-review").2.1 "code-review"
      = some (some crContent) ∧
    ∃ s ∈ skillsListInstalled home (skillsInstallFromCatalog home (.ok crContent) store "code-review").2.1,
      s.name = "code-review" ∧ s.description = "Reviews code" := by
  have hs : isValidSlug "code-review" = true := by decide
  have hp : parseSkillContent crContent "code-review"
      = some ⟨"code-review", "Reviews code", none⟩ := by decide
  have hres : (skillsInstallFromCatalog home (.ok crContent) store "code-review").2.1
      = setAssoc store "code-review" (some crContent) := by
    simp [skillsInstallFromCatalog, hs, hp]
  refine ⟨by simp [skillsInstallFromCatalog, hs, hp], by simp [skillsInstallFromCatalog, hs, hp],
    ?_, ?_⟩
  · rw [hres, lookupAssoc_setAssoc_self]
  · rw [hres]
    refine ⟨{ name := "code-review", description := "Reviews code",
              path := skillDirPath home "code-review", isGlobal := true, metadata := none },
            ?_, rfl, rfl⟩
    exact List.mem_filterMap.mpr
      ⟨("code-review", some crContent), setAssoc_self_mem store "code-review" (some crContent), rfl⟩

/-- Witness for C8: the scenario instantiated at a concrete home
directory and an empty store. -/
theorem install_code_review_scenario_witness :
    (skillsInstallFromCatalog "/h" (.ok crContent) [] "code-review").1.success = true ∧
    ∃ s ∈ skillsListInstalled "/h" (skillsInstallFromCatalog "/h" (.ok crContent) [] "code-review").2.1,
      s.name = "code-review" ∧ s.description = "Reviews code" := by
  have h := install_code_review_scenario "/h" []
  exact ⟨by rw [h.1], h.2.2.2⟩

/-- **C7**: `remove`, for skills and agents alike, validates the slug
pattern first (an invalid name fails with the invalid-name error and no
filesystem access), then stats the canonical file of the resource
(`<dir>/SKILL.md` for skills, `<name>.md` for agents); when that file is
absent it fails with the not-found error, leaving the store unchanged and
having performed only the stat — only when the file exists is the entry
deleted. -/
theorem remove_stats_canonical_file_before_deleting :
    (∀ home (store : SkillStore) name, isValidSlug name = false →
      skillsRemove home store name = (.error "Invalid skill name", store, [])) ∧
    (∀ home (store : SkillStore) name, isValidSlug name = true →
      ((∀ c, lookupAssoc store name ≠ some (some c)) →
        skillsRemove home store name
          = (.error "Skill not found", store, [FsEvent.statF (skillMdPath home name)])) ∧
      (∀ c, lookupAssoc store name = some (some c) →
        skillsRemove home store name
          = (.ok (), eraseAssoc store name,
             [FsEvent.statF (skillMdPath home name), FsEvent.rmE (skillDirPath home name)]))) ∧
    (∀ home (store : AgentStore) name, isValidSlug name = false →
      agentsRemove home store name = (.error "Invalid agent name", store, [])) ∧
    (∀ home (store : AgentStore) name, isValidSlug name = true →
      (lookupAssoc store (name ++ ".md") = none →
        agentsRemove home store name
          = (.error "Agent not found", store, [FsEvent.statF (agentFilePath home name)])) ∧
      (∀ c, lookupAssoc store (name ++ ".md") = some c →
        agentsRemove home store name
          = (.ok (), eraseAssoc store (name ++ ".md"),
             [FsEvent.statF (agentFilePath home name), FsEvent.rmE (agentFilePath home name)]))) := by
  refine ⟨?_, ?_, ?_, ?_⟩
  · intro home store name h
    simp [skillsRemove, h]
  · intro home store name h
    constructor
    · intro habs
      rcases hl : lookupAssoc store name with _ | oc
      · simp [skillsRemove, h, hl]
      · rcases oc with _ | c
        · simp [skillsRemove, h, hl]
        · exact absurd hl (habs c)
    · intro c hc
      simp [skillsRemove, h, hc]
  · intro home store name h
    simp [agentsRemove, h]
  · intro home store name h
    constructor
    · intro hl
      simp [agentsRemove, h, hl]
    · intro c hc
      simp [agentsRemove, h, hc]

/-- Witness for C7: removing the nonexistent skill `ghost` from an empty
store fails with the not-found error, mutates nothing, and only stats the
canonical `SKILL.md` path. -/
theorem remove_stats_canonical_file_before_deleting_witness :
    skillsRemove "/h" [] "ghost"
      = (.error "Skill not found", [], [FsEvent.statF "/h/.config/opencode/skills/ghost/SKILL.md"]) := by
  have h := (remove_stats_canonical_file_before_deleting.2.1 "/h" [] "ghost" (by decide)).1
    (by intro c; simp [lookupAssoc])
  simpa using h

/-- **C3**: for each catalog kind, when the single fetch attempt of a call
fails (rejected promise or non-ok response), the call returns the cached
list whenever the slot of that kind is populated — regardless of `forceRefresh`
and of how stale the shared expiry is — and leaves the state unchanged;
when the slot is empty, the failure is propagated as the thrown message
(or the status message built for a non-ok response). -/
theorem catalog_fetch_stale_fallback :
    (∀ st net now force, fetchFailed net →
      (∀ l, st.skillsCache = some l →
        (fetchSkills st net now force).1 = .ok l ∧ (fetchSkills st net now force).2.1 = st) ∧
      (st.skillsCache = none →
        fetchSkills st net now force
          = (.error (fetchFailMsg "Failed to fetch skills catalog: " net), st, true))) ∧
    (∀ st net now force, fetchFailed net →
      (∀ l, st.mcpCache = some l →
        (fetchMcpServers st net now force).1 = .ok l ∧ (fetchMcpServers st net now force).2.1 = st) ∧
      (st.mcpCache = none →
        fetchMcpServers st net now force
          = (.error (fetchFailMsg "Failed to fetch MCP catalog: " net), st, true))) ∧
    (∀ st net now force, fetchFailed net →
      (∀ l, st.agentsCache = some l →
        (fetchAgents st net now force).1 = .ok l ∧ (fetchAgents st net now force).2.1 = st) ∧
      (st.agentsCache = none →
        fetchAgents st net now force
          = (.error (fetchFailMsg "Failed to fetch agents catalog: " net), st, true))) := by
  refine ⟨?_, ?_, ?_⟩ <;>
  · intro st net now force hfail
    constructor
    · intro l hl
      cases net with
      | thrown e =>
        simp only [fetchSkills, fetchMcpServers, fetchAgents, fetchSkillsNet, fetchMcpNet,
          fetchAgentsNet, hl]
        split <;> simp [hl]
      | response ok status entries =>
        simp only [fetchFailed] at hfail
        subst hfail
        simp only [fetchSkills, fetchMcpServers, fetchAgents, fetchSkillsNet, fetchMcpNet,
          fetchAgentsNet, hl]
        split <;> simp [hl]
    · intro h0
      cases net with
      | thrown e =>
        simp [fetchSkills, fetchMcpServers, fetchAgents, fetchSkillsNet, fetchMcpNet,
          fetchAgentsNet, h0, fetchFailMsg]
      | response ok status entries =>
        simp only [fetchFailed] at hfail
        subst hfail
        simp [fetchSkills, fetchMcpServers, fetchAgents, fetchSkillsNet, fetchMcpNet,
          fetchAgentsNet, h0, fetchFailMsg]

/-- Witness for C3: with a primed skills slot and an expired shared
expiry, a failing fetch returns the primed entry; with an empty slot the
same failure is propagated. -/
theorem catalog_fetch_stale_fallback_witness :
    (fetchSkills { skillsCache := some [⟨"a", "A", "d", "skills/a/SKILL.md"⟩], mcpCache := none,
                   agentsCache := none, cacheExpiry := 0 }
        (.response false 500 []) 5000000 false).1
      = .ok [⟨"a", "A", "d", "skills/a/SKILL.md"⟩] ∧
    fetchSkills { skillsCache := none, mcpCache := none, agentsCache := none, cacheExpiry := 0 }
        (.response false 500 []) 5000000 false
      = (.error "Failed to fetch skills catalog: 500",
         { skillsCache := none, mcpCache := none, agentsCache := none, cacheExpiry := 0 }, true) := by
  constructor
  · exact ((catalog_fetch_stale_fallback.1
      { skillsCache := some [⟨"a", "A", "d", "skills/a/SKILL.md"⟩], mcpCache := none,
        agentsCache := none, cacheExpiry := 0 }
      (.response false 500 []) 5000000 false rfl).1 [⟨"a", "A", "d", "skills/a/SKILL.md"⟩] rfl).1
  · exact (catalog_fetch_stale_fallback.1
      { skillsCache := none, mcpCache := none, agentsCache := none, cacheExpiry := 0 }
      (.response false 500 []) 5000000 false rfl).2 rfl

/-- **C4**: `getInstallationToken` returns the cached token, with no
network call, exactly when `now` is strictly before the recorded expiry;
regeneration records `expires_at − 5 minutes` as the new expiry.
Consequently a cached token recorded from `expires_at = now + 4 min 59 s`
(recorded expiry `now − 1000` ms) regenerates, while `expires_at =
now + 5 min 1 s` (recorded expiry `now + 1000` ms) is served from cache
without a network call. -/
theorem installation_token_cache_boundary :
    (∀ (t : InstallationToken) (now : Int) resp, now < t.expiresAt →
      getInstallationToken (some t) now resp = (.ok t.token, some t, false)) ∧
    (∀ (t : InstallationToken) (now : Int) resp, ¬ now < t.expiresAt →
      getInstallationToken (some t) now resp = regenerateToken (some t) resp ∧
      (regenerateToken (some t) resp).2.2 = true) ∧
    (∀ cached resp, resp.ok = true →
      regenerateToken cached resp
        = (.ok resp.token, some ⟨resp.token, resp.expiresAtMs - 5 * 60 * 1000⟩, true)) ∧
    (∀ tok (now : Int) resp,
      (getInstallationToken (some ⟨tok, now + 299000 - 300000⟩) now resp).2.2 = true) ∧
    (∀ tok (now : Int) resp,
      getInstallationToken (some ⟨tok, now + 301000 - 300000⟩) now resp
        = (.ok tok, some ⟨tok, now + 301000 - 300000⟩, false)) := by
  refine ⟨?_, ?_, ?_, ?_, ?_⟩
  · intro t now resp h
    simp [getInstallationToken, h]
  · intro t now resp h
    refine ⟨by simp [getInstallationToken, h], ?_⟩
    by_cases hr : resp.ok <;> simp [regenerateToken, hr]
  · intro cached resp h
    simp [regenerateToken, h]
  · intro tok now resp
    have h : ¬ now < now + 299000 - 300000 := by omega
    by_cases hr : resp.ok <;> simp [getInstallationToken, regenerateToken, h, hr]
  · intro tok now resp
    have h : now < now + 301000 - 300000 := by omega
    simp [getInstallationToken, h]

/-- Witness for C4: at `now = 1000000`, a cached token whose underlying
`expires_at` is 4 min 59 s away triggers the network, while one 5 min 1 s
away is returned from cache with no network call. -/
theorem installation_token_cache_boundary_witness :
    (getInstallationToken (some ⟨"tok", 1000000 + 299000 - 300000⟩) 1000000
        ⟨true, 201, "", "fresh", 1000000 + 3600000⟩).2.2 = true ∧
    getInstallationToken (some ⟨"tok", 1000000 + 301000 - 300000⟩) 1000000
        ⟨true, 201, "", "fresh", 1000000 + 3600000⟩
      = (.ok "tok", some ⟨"tok", 1000000 + 301000 - 300000⟩, false) := by
  exact ⟨installation_token_cache_boundary.2.2.2.1 "tok" 1000000 _,
         installation_token_cache_boundary.2.2.2.2 "tok" 1000000 _⟩

/-- **C5**: the three fetchers share the single `cacheExpiry` field: a
call of any kind that consulted the network and got a successful response
sets it to `now + cacheDuration` (one hour), and touches no other
slot; and a call with `forceRefresh = false` whose own slot is non-null
returns the cached list with no network request whenever `now` is before
the shared expiry — however that expiry was last set, in particular by a
successful fetch of a different kind. -/
theorem catalog_shared_cache_expiry :
    (∀ st entries status (now : Int) force,
      (fetchSkills st (.response true status entries) now force).2.2 = true →
      (fetchSkills st (.response true status entries) now force).2.1
        = { st with skillsCache := some entries, cacheExpiry := now + cacheDuration }) ∧
    (∀ st entries status (now : Int) force,
      (fetchMcpServers st (.response true status entries) now force).2.2 = true →
      (fetchMcpServers st (.response true status entries) now force).2.1
        = { st with mcpCache := some entries, cacheExpiry := now + cacheDuration }) ∧
    (∀ st entries status (now : Int) force,
      (fetchAgents st (.response true status entries) now force).2.2 = true →
      (fetchAgents st (.response true status entries) now force).2.1
        = { st with agentsCache := some entries, cacheExpiry := now + cacheDuration }) ∧
    (∀ st l net (now : Int), st.skillsCache = some l → now < st.cacheExpiry →
      fetchSkills st net now false = (.ok l, st, false)) ∧
    (∀ st l net (now : Int), st.mcpCache = some l → now < st.cacheExpiry →
      fetchMcpServers st net now false = (.ok l, st, false)) ∧
    (∀ st l net (now : Int), st.agentsCache = some l → now < st.cacheExpiry →
      fetchAgents st net now false = (.ok l, st, false)) := by
  refine ⟨?_, ?_, ?_, ?_, ?_, ?_⟩
  · intro st entries status now force h
    rcases hc : st.skillsCache with _ | cached
    · simp [fetchSkills, fetchSkillsNet, hc]
    · by_cases hcond : force = false ∧ now < st.cacheExpiry
      · simp [fetchSkills, hc, hcond] at h
      · simp [fetchSkills, fetchSkillsNet, hc, hcond]
  · intro st entries status now force h
    rcases hc : st.mcpCache with _ | cached
    · simp [fetchMcpServers, fetchMcpNet, hc]
    · by_cases hcond : force = false ∧ now < st.cacheExpiry
      · simp [fetchMcpServers, hc, hcond] at h
      · simp [fetchMcpServers, fetchMcpNet, hc, hcond]
  · intro st entries status now force h
    rcases hc : st.agentsCache with _ | cached
    · simp [fetchAgents, fetchAgentsNet, hc]
    · by_cases hcond : force = false ∧ now < st.cacheExpiry
      · simp [fetchAgents, hc, hcond] at h
      · simp [fetchAgents, fetchAgentsNet, hc, hcond]
  · intro st l net now hl hfresh
    simp [fetchSkills, hl, hfresh]
  · intro st l net now hl hfresh
    simp [fetchMcpServers, hl, hfresh]
  · intro st l net now hl hfresh
    simp [fetchAgents, hl, hfresh]

/-- Witness for C5: prime the skills slot at time 0 (expiry 3600000),
then at time 4000000 (past that expiry) a successful agents fetch resets
the shared expiry to 7600000; a skills fetch at time 7000000 — fresh only
thanks to the agents fetch — returns the primed skills list with no
network request. -/
theorem catalog_shared_cache_expiry_witness :
    (fetchAgents { skillsCache := some [⟨"a", "A", "d", "skills/a/SKILL.md"⟩], mcpCache := none,
                   agentsCache := none, cacheExpiry := 3600000 }
        (.response true 200 [⟨"g", "G", "d", "agents/g.md"⟩]) 4000000 false).2.1.cacheExpiry
      = 7600000 ∧
    fetchSkills { skillsCache := some [⟨"a", "A", "d", "skills/a/SKILL.md"⟩],
                  mcpCache := none, agentsCache := some [⟨"g", "G", "d", "agents/g.md"⟩],
                  cacheExpiry := 7600000 }
        (.thrown "network down") 7000000 false
      = (.ok [⟨"a", "A", "d", "skills/a/SKILL.md"⟩],
         { skillsCache := some [⟨"a", "A", "d", "skills/a/SKILL.md"⟩],
           mcpCache := none, agentsCache := some [⟨"g", "G", "d", "agents/g.md"⟩],
           cacheExpiry := 7600000 }, false) := by
  constructor
  · have h := catalog_shared_cache_expiry.2.2.1
      { skillsCache := some [⟨"a", "A", "d", "skills/a/SKILL.md"⟩], mcpCache := none,
        agentsCache := none, cacheExpiry := 3600000 }
      [⟨"g", "G", "d", "agents/g.md"⟩] 200 4000000 false (by decide)
    rw [h]
    decide
  · exact catalog_shared_cache_expiry.2.2.2.1
      { skillsCache := some [⟨"a", "A", "d", "skills/a/SKILL.md"⟩],
        mcpCache := none, agentsCache := some [⟨"g", "G", "d", "agents/g.md"⟩],
        cacheExpiry := 7600000 }
      [⟨"a", "A", "d", "skills/a/SKILL.md"⟩] (.thrown "network down") 7000000 rfl (by decide)

/-- **C2**: if the k-th HTTP request of `createSkillRequestPR` (0-based,
over the six requests of the five steps; step 4 issues requests 3 and 4)
is the first to come back non-2xx, the call issues exactly the first
`k + 1` requests of the sequence — none of the requests of later steps —
and returns `{success: false, error}` with the message of the failing step and
HTTP status; the trace length `k + 1` also shows no request is retried. -/
theorem createSkillRequestPR_aborts_on_first_failure
    (skillName skillDescription skillContent sourceUrl : String) (nowMs : Int) (nowIso : String)
    (net : Nat → GhResponse) (k : Nat) (hk : k < 6)
    (hok : ∀ j, j < k → (net j).ok = true) (hfail : (net k).ok = false) :
    createSkillRequestPR skillName skillDescription skillContent sourceUrl nowMs nowIso net
      = (prFail (prStepErrorMsg k (net k)),
         (prStepRequests skillName nowMs
            (updatedCatalog (net 3).catalog skillName skillDescription nowIso)).take (k + 1)) ∧
    (createSkillRequestPR skillName skillDescription skillContent sourceUrl nowMs nowIso net).2.length
      = k + 1 := by
  interval_cases k
  · refine ⟨?_, ?_⟩ <;>
      simp [createSkillRequestPR, prStepRequests, prStepErrorMsg, hfail]
  · have h0 := hok 0 (by omega)
    refine ⟨?_, ?_⟩ <;>
      simp [createSkillRequestPR, prStepRequests, prStepErrorMsg, h0, hfail]
  · have h0 := hok 0 (by omega)
    have h1 := hok 1 (by omega)
    refine ⟨?_, ?_⟩ <;>
      simp [createSkillRequestPR, prStepRequests, prStepErrorMsg, h0, h1, hfail]
  · have h0 := hok 0 (by omega)
    have h1 := hok 1 (by omega)
    have h2 := hok 2 (by omega)
    refine ⟨?_, ?_⟩ <;>
      simp [createSkillRequestPR, prStepRequests, prStepErrorMsg, h0, h1, h2, hfail]
  · have h0 := hok 0 (by omega)
    have h1 := hok 1 (by omega)
    have h2 := hok 2 (by omega)
    have h3 := hok 3 (by omega)
    refine ⟨?_, ?_⟩ <;>
      simp [createSkillRequestPR, prStepRequests, prStepErrorMsg, updatedCatalog, h0, h1, h2, h3,
        hfail]
  · have h0 := hok 0 (by omega)
    have h1 := hok 1 (by omega)
    have h2 := hok 2 (by omega)
    have h3 := hok 3 (by omega)
    have h4 := hok 4 (by omega)
    refine ⟨?_, ?_⟩ <;>
      simp [createSkillRequestPR, prStepRequests, prStepErrorMsg, updatedCatalog, h0, h1, h2, h3,
        h4, hfail]

/-- An all-fields response used by concrete workflow scenarios. -/
def ghOkResponse : GhResponse :=
  { ok := true, status := 200, bodyText := "", sha := "abc123", contentSha := "blob1",
    catalog := { version := "1.0.0", lastUpdated := "2024-01-01", skills := [] },
    htmlUrl := "https://example.test/pr/1" }

/-- The C2 scenario network: requests 0 and 1 succeed, request 2 (the
step-3 SKILL.md creation) returns 422. -/
def ghNet422 : Nat → GhResponse :=
  fun i => if i < 2 then ghOkResponse else { ghOkResponse with ok := false, status := 422 }

/-- Witness for C2: with step 3 failing at HTTP 422, the call returns the
step-3 failure message and issues only the first three requests. -/
theorem createSkillRequestPR_aborts_on_first_failure_witness :
    createSkillRequestPR "foo-bar" "A desc" "content" "https://skills.sh/x/y/foo-bar" 1700000000000
        "2024-01-01T00:00:00.000Z" ghNet422
      = ({ success := false, prUrl := none, error := some "Failed to create SKILL.md: 422" },
         [⟨"GET", "/repos/ThinkOodle/ai-catalog/git/ref/heads/master", none⟩,
          ⟨"POST", "/repos/ThinkOodle/ai-catalog/git/refs", none⟩,
          ⟨"PUT", "/repos/ThinkOodle/ai-catalog/contents/skills/foo-bar/SKILL.md", none⟩]) := by
  have h := (createSkillRequestPR_aborts_on_first_failure "foo-bar" "A desc" "content"
    "https://skills.sh/x/y/foo-bar" 1700000000000 "2024-01-01T00:00:00.000Z" ghNet422 2
    (by omega) (by decide) (by decide)).1
  rw [h]
  decide

/-- **C10**: the catalog-index entry appended by step 4 of
`createSkillRequestPR` takes its `name` from the DESCRIPTION of the skill (the
description itself when at most 64 characters, else its first 61
characters and a three-dot ellipsis), its `description` from the same
string truncated at 200/197, its `id` from the slug, and its `path` is
`skills/<slug>/SKILL.md`; on an all-2xx run the fifth issued request is
the catalog update carrying exactly the old entry list with this entry
appended. -/
theorem requested_entry_computed_from_description
    (skillName skillDescription skillContent sourceUrl : String) (nowMs : Int) (nowIso : String)
    (net : Nat → GhResponse) (hall : ∀ j, j < 6 → (net j).ok = true) :
    (mkRequestedEntry skillName skillDescription nowIso).name
      = (if skillDescription.length ≤ 64 then skillDescription
         else skillDescription.take 61 ++ "...") ∧
    (mkRequestedEntry skillName skillDescription nowIso).description
      = (if skillDescription.length ≤ 200 then skillDescription
         else skillDescription.take 197 ++ "...") ∧
    (mkRequestedEntry skillName skillDescription nowIso).id = skillName ∧
    (mkRequestedEntry skillName skillDescription nowIso).path
      = "skills/" ++ skillName ++ "/SKILL.md" ∧
    (∀ cat, (updatedCatalog cat skillName skillDescription nowIso).skills
        = cat.skills ++ [mkRequestedEntry skillName skillDescription nowIso] ∧
      (updatedCatalog cat skillName skillDescription nowIso).lastUpdated = nowIso) ∧
    (createSkillRequestPR skillName skillDescription skillContent sourceUrl nowMs nowIso net).2.get? 4
      = some ⟨"PUT", repoApi "/contents/skills.json",
              some (updatedCatalog (net 3).catalog skillName skillDescription nowIso)⟩ := by
  refine ⟨?_, ?_, rfl, rfl, fun cat => ⟨rfl, rfl⟩, ?_⟩
  · by_cases h : skillDescription.length ≤ 64
    · simp [mkRequestedEntry, h, Nat.not_lt.mpr h]
    · simp [mkRequestedEntry, h, Nat.lt_of_not_le h]
  · by_cases h : skillDescription.length ≤ 200
    · simp [mkRequestedEntry, h, Nat.not_lt.mpr h]
    · simp [mkRequestedEntry, h, Nat.lt_of_not_le h]
  · have h0 := hall 0 (by omega)
    have h1 := hall 1 (by omega)
    have h2 := hall 2 (by omega)
    have h3 := hall 3 (by omega)
    have h4 := hall 4 (by omega)
    have h5 := hall 5 (by omega)
    simp [createSkillRequestPR, updatedCatalog, h0, h1, h2, h3, h4, h5, List.get?]

/-- Witness for C10: on an all-2xx network with a 5-character description,
the appended entry keeps the description as both `name` and
`description`, and the fifth request carries the singleton-appended
catalog. -/
theorem requested_entry_computed_from_description_witness :
    (mkRequestedEntry "foo-bar" "short" "2024-01-01T00:00:00.000Z").name = "short" ∧
    (mkRequestedEntry "foo-bar" "short" "2024-01-01T00:00:00.000Z").id = "foo-bar" ∧
    (mkRequestedEntry "foo-bar" "short" "2024-01-01T00:00:00.000Z").path
      = "skills/foo-bar/SKILL.md" ∧
    (createSkillRequestPR "foo-bar" "short" "content" "https://skills.sh/x/y/foo-bar" 1700000000000
        "2024-01-01T00:00:00.000Z" (fun _ => ghOkResponse)).2.get? 4
      = some ⟨"PUT", repoApi "/contents/skills.json",
              some { version := "1.0.0", lastUpdated := "2024-01-01T00:00:00.000Z",
                     skills := [mkRequestedEntry "foo-bar" "short" "2024-01-01T00:00:00.000Z"] }⟩ := by
  have h := requested_entry_computed_from_description "foo-bar" "short" "content"
    "https://skills.sh/x/y/foo-bar" 1700000000000 "2024-01-01T00:00:00.000Z" (fun _ => ghOkResponse)
    (fun j hj => rfl)
  refine ⟨?_, h.2.2.1, h.2.2.2.1, ?_⟩
  · rw [h.1]
    decide
  · rw [h.2.2.2.2.2]
    decide

/-- **C9**: a metadata block is recognised only if the content opens with
the delimiter line `---`, contains a second matching delimiter later, and
the region between the two delimiter tokens — the newline-wrapped
metadata text `"\n" ++ fm ++ "\n"` — is non-empty (the metadata text
itself may be blank, but at least the wrapping line break must separate
the two delimiters: `"---\n---"` is NOT recognised).  When no block is
recognised, both parsers return `null` and validation reports exactly the
missing-metadata-block error. -/
theorem frontmatter_recognition_only_if :
    (∀ content fm, extractFrontmatter content = some fm →
      (∃ rest : String, content = "---\n" ++ fm ++ "\n---" ++ rest) ∧
      ("\n" ++ fm ++ "\n") ≠ "") ∧
    (∀ content expectedName, extractFrontmatter content = none →
      parseSkillContent content expectedName = none ∧
      parseAgentContent content expectedName = none ∧
      validateAgentContent content = [frontmatterMissingError]) := by
  constructor
  · intro content fm h
    constructor
    · unfold extractFrontmatter at h
      split at h
      · next rest heq =>
        obtain ⟨g, hg, rfl⟩ := Option.map_eq_some'.mp h
        obtain ⟨r, hr⟩ := fmClose_decomp rest g hg
        refine ⟨String.mk r, stringDataInj ?_⟩
        rw [heq, hr]
        simp [String.data_append]
      · next =>
        exact absurd h (by simp)
    · intro hemp
      have hd := congrArg String.data hemp
      simp [String.data_append] at hd
  · intro content expectedName h
    refine ⟨?_, ?_, ?_⟩ <;>
      simp [parseSkillContent, parseAgentContent, validateAgentContent, h]

/-- Witness for C9: the scenario content is recognised and decomposes
around its frontmatter, while content with no delimiter line is rejected
by both parsers and yields exactly the frontmatter validation error. -/
theorem frontmatter_recognition_only_if_witness :
    ((∃ rest : String,
        "---\nname: x\ndescription: y\n---\nbody"
          = "---\n" ++ "name: x\ndescription: y" ++ "\n---" ++ rest) ∧
      ("\n" ++ "name: x\ndescription: y" ++ "\n") ≠ "") ∧
    parseSkillContent "just text" "x" = none ∧
    parseAgentContent "just text" "x" = none ∧
    validateAgentContent "just text" = [frontmatterMissingError] := by
  exact ⟨frontmatter_recognition_only_if.1 "---\nname: x\ndescription: y\n---\nbody"
           "name: x\ndescription: y" (by decide),
         frontmatter_recognition_only_if.2 "just text" "x" (by decide)⟩

/-- The temperature-rejection condition: the trimmed value fails to parse
as a number, or parses outside `[0, 1]`. -/
def badTempB (t : String) : Bool :=
  match parseFloatJS t with
  | none => true
  | some q => q.ltZero || q.gtOne

theorem mem_descriptionErrors_iff (e : AgentValidationError) (fm : String) :
    e ∈ descriptionErrors fm
      ↔ (e = descRequiredError ∧
          (matchField "description" fm = none ∨
            ∃ v, matchField "description" fm = some v ∧ trimJS v = "")) ∨
        (e = descTooLongError ∧
          ∃ v, matchField "description" fm = some v ∧ trimJS v ≠ "" ∧
            200 < (trimJS v).length) := by
  unfold descriptionErrors
  rcases hd : matchField "description" fm with _ | v
  · simp
  · simp only [hd]
    by_cases ht : trimJS v = ""
    · simp [ht]
    · by_cases hl : (trimJS v).length > 200
      · simp [ht, hl]
      · simp [ht, hl]

theorem mem_modeErrors_iff (e : AgentValidationError) (fm : String) :
    e ∈ modeErrors fm
      ↔ e = modeInvalidError ∧
        ∃ v, matchField "mode" fm = some v ∧
          trimJS v ≠ "primary" ∧ trimJS v ≠ "subagent" ∧ trimJS v ≠ "all" := by
  unfold modeErrors
  rcases hm : matchField "mode" fm with _ | v
  · simp
  · simp only [hm]
    by_cases hv : trimJS v = "primary" ∨ trimJS v = "subagent" ∨ trimJS v = "all"
    · simp only [if_pos hv, List.not_mem_nil, false_iff]
      intro hc
      rcases hc with ⟨-, v', hv', h1, h2, h3⟩
      obtain rfl : v = v' := Option.some.inj hv'
      tauto
    · simp only [if_neg hv, List.mem_singleton]
      push_neg at hv
      constructor
      · intro he
        exact ⟨he, v, rfl, hv.1, hv.2.1, hv.2.2⟩
      · rintro ⟨he, -⟩
        exact he

theorem mem_modelErrors_iff (e : AgentValidationError) (fm : String) :
    e ∈ modelErrors fm
      ↔ e = modelFormatError ∧
        ∃ v, matchField "model" fm = some v ∧ trimJS v ≠ "" ∧ containsChar (trimJS v) '/' = false := by
  unfold modelErrors
  rcases hm : matchField "model" fm with _ | v
  · simp
  · simp only [hm]
    by_cases hv : trimJS v ≠ "" ∧ ¬ containsChar (trimJS v) '/'
    · simp only [if_pos hv, List.mem_singleton]
      constructor
      · intro he
        exact ⟨he, v, rfl, hv.1, by simpa using hv.2⟩
      · rintro ⟨he, -⟩
        exact he
    · simp only [if_neg hv, List.not_mem_nil, false_iff]
      rintro ⟨-, v', hv', h1, h2⟩
      obtain rfl : v = v' := Option.some.inj hv'
      exact hv ⟨h1, by simp [h2]⟩

theorem mem_temperatureErrors_iff (e : AgentValidationError) (fm : String) :
    e ∈ temperatureErrors fm
      ↔ e = temperatureRangeError ∧
        ∃ v, matchField "temperature" fm = some v ∧ badTempB (trimJS v) = true := by
  unfold temperatureErrors
  rcases hm : matchField "temperature" fm with _ | v
  · simp
  · simp only [hm]
    rcases hp : parseFloatJS (trimJS v) with _ | q
    · simp only [List.mem_singleton]
      constructor
      · intro he
        exact ⟨he, v, rfl, by simp [badTempB, hp]⟩
      · rintro ⟨he, -⟩
        exact he
    · by_cases hq : q.ltZero ∨ q.gtOne
      · simp only [if_pos hq, List.mem_singleton]
        constructor
        · intro he
          refine ⟨he, v, rfl, by simp [badTempB, hp]; tauto⟩
        · rintro ⟨he, -⟩
          exact he
      · simp only [if_neg hq, List.not_mem_nil, false_iff]
        rintro ⟨-, v', hv', hbad⟩
        obtain rfl : v = v' := Option.some.inj hv'
        rw [badTempB, hp] at hbad
        simp at hbad
        tauto

/-- **C6**: for content whose metadata block parses, `validateAgentContent`
accumulates ALL applicable field errors, not only the first: each of the
five possible field errors is in the returned list exactly when its own
condition holds, independently of the other fields; a missing metadata
block instead short-circuits to exactly the one frontmatter error. -/
theorem validate_returns_all_applicable_errors :
    (∀ content fm, extractFrontmatter content = some fm →
      ((descRequiredError ∈ validateAgentContent content
          ↔ matchField "description" fm = none ∨
            ∃ v, matchField "description" fm = some v ∧ trimJS v = "") ∧
       (descTooLongError ∈ validateAgentContent content
          ↔ ∃ v, matchField "description" fm = some v ∧ trimJS v ≠ "" ∧
              200 < (trimJS v).length) ∧
       (modeInvalidError ∈ validateAgentContent content
          ↔ ∃ v, matchField "mode" fm = some v ∧
              trimJS v ≠ "primary" ∧ trimJS v ≠ "subagent" ∧ trimJS v ≠ "all") ∧
       (modelFormatError ∈ validateAgentContent content
          ↔ ∃ v, matchField "model" fm = some v ∧ trimJS v ≠ "" ∧
              containsChar (trimJS v) '/' = false) ∧
       (temperatureRangeError ∈ validateAgentContent content
          ↔ ∃ v, matchField "temperature" fm = some v ∧ badTempB (trimJS v) = true))) ∧
    (∀ content, extractFrontmatter content = none →
      validateAgentContent content = [frontmatterMissingError]) := by
  constructor
  · intro content fm h
    have hv : validateAgentContent content
        = descriptionErrors fm ++ modeErrors fm ++ modelErrors fm ++ temperatureErrors fm := by
      simp [validateAgentContent, h]
    refine ⟨?_, ?_, ?_, ?_, ?_⟩ <;>
      rw [hv] <;>
      simp only [List.mem_append, mem_descriptionErrors_iff, mem_modeErrors_iff,
        mem_modelErrors_iff, mem_temperatureErrors_iff]
    · simp [(by decide : descRequiredError ≠ descTooLongError),
        (by decide : descRequiredError ≠ modeInvalidError),
        (by decide : descRequiredError ≠ modelFormatError),
        (by decide : descRequiredError ≠ temperatureRangeError)]
    · simp [(by decide : descTooLongError ≠ descRequiredError),
        (by decide : descTooLongError ≠ modeInvalidError),
        (by decide : descTooLongError ≠ modelFormatError),
        (by decide : descTooLongError ≠ temperatureRangeError)]
    · simp [(by decide : modeInvalidError ≠ descRequiredError),
        (by decide : modeInvalidError ≠ descTooLongError),
        (by decide : modeInvalidError ≠ modelFormatError),
        (by decide : modeInvalidError ≠ temperatureRangeError)]
    · simp [(by decide : modelFormatError ≠ descRequiredError),
        (by decide : modelFormatError ≠ descTooLongError),
        (by decide : modelFormatError ≠ modeInvalidError),
        (by decide : modelFormatError ≠ temperatureRangeError)]
    · simp [(by decide : temperatureRangeError ≠ descRequiredError),
        (by decide : temperatureRangeError ≠ descTooLongError),
        (by decide : temperatureRangeError ≠ modeInvalidError),
        (by decide : temperatureRangeError ≠ modelFormatError)]
  · intro content h
    simp [validateAgentContent, h]

/-- Witness for C6: content whose metadata block has no description, a bad
mode, a slash-less model and `temperature: 1.5` receives all four
applicable errors at once — in particular the temperature error of the
spec scenario — and delimiter-less content receives exactly the
frontmatter error. -/
theorem validate_returns_all_applicable_errors_witness :
    descRequiredError
      ∈ validateAgentContent "---\nmode: wrong\nmodel: nomodel\ntemperature: 1.5\n---\nbody" ∧
    modeInvalidError
      ∈ validateAgentContent "---\nmode: wrong\nmodel: nomodel\ntemperature: 1.5\n---\nbody" ∧
    modelFormatError
      ∈ validateAgentContent "---\nmode: wrong\nmodel: nomodel\ntemperature: 1.5\n---\nbody" ∧
    temperatureRangeError
      ∈ validateAgentContent "---\nmode: wrong\nmodel: nomodel\ntemperature: 1.5\n---\nbody" ∧
    validateAgentContent "just text" = [frontmatterMissingError] := by
  have h := (validate_returns_all_applicable_errors.1
    "---\nmode: wrong\nmodel: nomodel\ntemperature: 1.5\n---\nbody"
    "mode: wrong\nmodel: nomodel\ntemperature: 1.5" (by decide))
  refine ⟨h.1.mpr (Or.inl (by decide)), ?_, ?_, ?_,
    validate_returns_all_applicable_errors.2 "just text" (by decide)⟩
  · exact h.2.2.1.mpr ⟨"wrong", by decide, by decide, by decide, by decide⟩
  · exact h.2.2.2.1.mpr ⟨"nomodel", by decide, by decide, by decide⟩
  · exact h.2.2.2.2.mpr ⟨"1.5", by decide, by decide⟩

end OCG
